import Mathlib

/-! # JSON scraper (`pkg/scraper/json.go`)

A shallow embedding of the JSON backend of the scraper: document loading with
JSONP repair (`jsonScraper.loadURL`), the scrape entry points (by URL, by name,
by fragment), and the document query (`jsonQuery.runQuery`,
`jsonQuery.subScrape`).

* Go strings are modelled as lists of characters (`Str`); a Go `error` built by
  `errors.New` is modelled by its message.
* A Go result `(value, error)` is a record `Ret` that also lists, in order, the
  calls made to the fetch collaborator and to `constructURL`, so that "the URL
  that is fetched" and "no fetch is issued" are statements about the result.
* The functions of the package that live in other files, the storage, and the
  query functions of the JSON library are parameters (`Collaborators`,
  `Gjson`).  The pattern `patternJSONPSyntax`, `gjson.Valid`, `url.QueryEscape`
  and `strings.Replace` are defined, since the results depend on what they
  compute.
* Logging calls have no effect on the returned values and are left out.
-/

namespace Scraper

/-- Text: a Go `string`, as the sequence of its characters. -/
abbrev Str := List Char

/-- A Go `error`, identified by its message. -/
abbrev GoError := Str

/-! ## `patternJSONPSyntax`

The pattern is `(?s)^[^{[]+\((.+)\);?$`.  It is anchored at both ends, so it
has at most one match in a text and that match is the whole text.  The
functions below follow the order in which a backtracking search explores the
pattern (each `+` is greedy), which is the match Go's `regexp` reports. -/

/-- The tail `\);?$` of the pattern: what is left of the text is `)` or `);`. -/
def matchClose (s : Str) : Bool :=
  s == [')'] || s == [')', ';']

/-- The part `(.+)\);?$` of the pattern: the text captured by the group `(.+)`.
With `(?s)` the dot matches every character.  The group takes one character
and first tries to take more; failing that it stops and the tail must match. -/
def matchGroup : Str → Option Str
  | [] => none
  | c :: rest =>
    match matchGroup rest with
    | some g => some (c :: g)
    | none => if matchClose rest then some [c] else none

/-- The class `[^{[]`. -/
def notOpen (c : Char) : Bool :=
  !(c == '{' || c == '[')

/-- The whole pattern `^[^{[]+\((.+)\);?$` on a text: the captured group of
the match, or `none` when the text does not match.  The prefix `[^{[]+` takes
one character of the class and first tries to take more; failing that it stops
and `\(` followed by the rest of the pattern must match. -/
def matchJSONP : Str → Option Str
  | [] => none
  | c :: rest =>
    if notOpen c then
      match matchJSONP rest with
      | some g => some g
      | none =>
        match rest with
        | '(' :: body => matchGroup body
        | _ => none
    else none

/-- The call `patternJSONPSyntax.ReplaceAllString(docStr, "$1")`: a matching text
is replaced by its captured group, any other text is returned as it is. -/
def replaceJSONP (docStr : Str) : Str :=
  match matchJSONP docStr with
  | some g => g
  | none => docStr

/-! ## `gjson.Valid`

The JSON library is an external dependency of the scraper.  Its validator
reads one value, surrounded by optional white space (space, tab, line feed and
carriage return), by the JSON grammar, with one allowance in numbers: the
function `validnumber` steps over a leading `-` without asking for a digit
after it, so that `-` followed by something that ends a number (as in `[-]`),
by a fraction (`-.5`) or by an exponent (`-e3`) is accepted; a `-` at the very
end of the text is refused.  The validator is modelled as a recogniser that
reads the text one character at a time and keeps the stack of the containers
that are still open. -/

/-- An open container. -/
inductive Container
  | object
  | array
  deriving DecidableEq, Repr

/-- What is left to read of a literal name (`true`, `false`, `null`) -/
inductive Keyword
  | rue | ue | e
  | alse | lse | se
  | ull | ll | l
  deriving DecidableEq, Repr

/-- Where the recogniser stands inside the grammar. -/
inductive Lex
  /-- a value must come -/
  | value
  /-- just after `[`: a value or `]` -/
  | arrayFirst
  /-- just after `{`: a key or `}` -/
  | objectFirst
  /-- after `,` inside an object: a key must come -/
  | objectKey
  /-- after a key: `:` must come -/
  | colon
  /-- after a complete value: `,`, the closing bracket, or the end -/
  | done
  /-- inside a string (a key when the flag is set) -/
  | str (key : Bool)
  /-- after a backslash inside a string -/
  | esc (key : Bool)
  /-- inside `\u`, with that many hexadecimal digits still to come, less one -/
  | hex (key : Bool) (more : Nat)
  /-- inside a literal name -/
  | keyword (k : Keyword)
  /-- after the sign of a number: digits may follow, and need not -/
  | minus
  /-- after a leading `0` -/
  | zero
  /-- inside the integer part -/
  | int
  /-- after the decimal point -/
  | dot
  /-- inside the fraction -/
  | frac
  /-- after `e` or `E` -/
  | exp
  /-- after the sign of the exponent -/
  | expSign
  /-- inside the exponent -/
  | expDigits
  deriving DecidableEq, Repr

/-- State of the recogniser: position in the grammar and open containers. -/
abbrev VState := Lex × List Container

def isSpace (c : Char) : Bool :=
  c == ' ' || c == '\t' || c == '\n' || c == '\r'

def isDigit (c : Char) : Bool :=
  '0'.toNat ≤ c.toNat && c.toNat ≤ '9'.toNat

def isHex (c : Char) : Bool :=
  isDigit c || ('a'.toNat ≤ c.toNat && c.toNat ≤ 'f'.toNat)
    || ('A'.toNat ≤ c.toNat && c.toNat ≤ 'F'.toNat)

/-- The first character of a value. -/
def startValue (c : Char) (stack : List Container) : Option VState :=
  if c == '{' then some (.objectFirst, .object :: stack)
  else if c == '[' then some (.arrayFirst, .array :: stack)
  else if c == '"' then some (.str false, stack)
  else if c == '-' then some (.minus, stack)
  else if c == '0' then some (.zero, stack)
  else if isDigit c then some (.int, stack)
  else if c == 't' then some (.keyword .rue, stack)
  else if c == 'f' then some (.keyword .alse, stack)
  else if c == 'n' then some (.keyword .ull, stack)
  else none

/-- A character that follows a complete value. -/
def afterValue (c : Char) (stack : List Container) : Option VState :=
  if isSpace c then some (.done, stack)
  else
    match stack with
    | [] => none
    | .array :: up =>
      if c == ',' then some (.value, .array :: up)
      else if c == ']' then some (.done, up)
      else none
    | .object :: up =>
      if c == ',' then some (.objectKey, .object :: up)
      else if c == '}' then some (.done, up)
      else none

/-- The next step inside a literal name. -/
def stepKeyword (k : Keyword) (c : Char) (stack : List Container) : Option VState :=
  match k with
  | .rue => if c == 'r' then some (.keyword .ue, stack) else none
  | .ue => if c == 'u' then some (.keyword .e, stack) else none
  | .e => if c == 'e' then some (.done, stack) else none
  | .alse => if c == 'a' then some (.keyword .lse, stack) else none
  | .lse => if c == 'l' then some (.keyword .se, stack) else none
  | .se => if c == 's' then some (.keyword .e, stack) else none
  | .ull => if c == 'u' then some (.keyword .ll, stack) else none
  | .ll => if c == 'l' then some (.keyword .l, stack) else none
  | .l => if c == 'l' then some (.done, stack) else none

/-- One character of input. -/
def vstep (st : VState) (c : Char) : Option VState :=
  match st with
  | (.value, stack) =>
    if isSpace c then some (.value, stack) else startValue c stack
  | (.arrayFirst, stack) =>
    if isSpace c then some (.arrayFirst, stack)
    else if c == ']' then some (.done, stack.tail)
    else startValue c stack
  | (.objectFirst, stack) =>
    if isSpace c then some (.objectFirst, stack)
    else if c == '}' then some (.done, stack.tail)
    else if c == '"' then some (.str true, stack)
    else none
  | (.objectKey, stack) =>
    if isSpace c then some (.objectKey, stack)
    else if c == '"' then some (.str true, stack)
    else none
  | (.colon, stack) =>
    if isSpace c then some (.colon, stack)
    else if c == ':' then some (.value, stack)
    else none
  | (.done, stack) => afterValue c stack
  | (.str key, stack) =>
    if c.toNat < ' '.toNat then none
    else if c == '\\' then some (.esc key, stack)
    else if c == '"' then some (if key then .colon else .done, stack)
    else some (.str key, stack)
  | (.esc key, stack) =>
    if c == '"' || c == '\\' || c == '/' || c == 'b' || c == 'f' || c == 'n'
        || c == 'r' || c == 't' then some (.str key, stack)
    else if c == 'u' then some (.hex key 3, stack)
    else none
  | (.hex key more, stack) =>
    if isHex c then
      match more with
      | 0 => some (.str key, stack)
      | n + 1 => some (.hex key n, stack)
    else none
  | (.keyword k, stack) => stepKeyword k c stack
  | (.minus, stack) =>
    if c == '0' then some (.zero, stack)
    else if isDigit c then some (.int, stack)
    else if c == '.' then some (.dot, stack)
    else if c == 'e' || c == 'E' then some (.exp, stack)
    else afterValue c stack
  | (.zero, stack) =>
    if c == '.' then some (.dot, stack)
    else if c == 'e' || c == 'E' then some (.exp, stack)
    else afterValue c stack
  | (.int, stack) =>
    if isDigit c then some (.int, stack)
    else if c == '.' then some (.dot, stack)
    else if c == 'e' || c == 'E' then some (.exp, stack)
    else afterValue c stack
  | (.dot, stack) =>
    if isDigit c then some (.frac, stack) else none
  | (.frac, stack) =>
    if isDigit c then some (.frac, stack)
    else if c == 'e' || c == 'E' then some (.exp, stack)
    else afterValue c stack
  | (.exp, stack) =>
    if c == '+' || c == '-' then some (.expSign, stack)
    else if isDigit c then some (.expDigits, stack)
    else none
  | (.expSign, stack) =>
    if isDigit c then some (.expDigits, stack) else none
  | (.expDigits, stack) =>
    if isDigit c then some (.expDigits, stack)
    else afterValue c stack

/-- The text may end here: one complete value has been read. -/
def accepting : VState → Bool
  | (.done, []) => true
  | (.zero, []) => true
  | (.int, []) => true
  | (.frac, []) => true
  | (.expDigits, []) => true
  | _ => false

/-- Reading a text from a state; `none` once a character is refused. -/
def vrun (st : Option VState) (s : Str) : Option VState :=
  s.foldl (fun o c => o.bind (fun st => vstep st c)) st

/-- The function `gjson.Valid`. -/
def gjsonValid (s : Str) : Bool :=
  match vrun (some (.value, [])) s with
  | some st => accepting st
  | none => false

/-! ## `url.QueryEscape` and `strings.Replace` (Go standard library) -/

/-- The bytes of the UTF-8 encoding of a character. -/
def utf8Bytes (c : Char) : List Nat :=
  let n := c.toNat
  if n < 0x80 then [n]
  else if n < 0x800 then [0xC0 + n / 64, 0x80 + n % 64]
  else if n < 0x10000 then [0xE0 + n / 4096, 0x80 + n / 64 % 64, 0x80 + n % 64]
  else [0xF0 + n / 262144, 0x80 + n / 4096 % 64, 0x80 + n / 64 % 64, 0x80 + n % 64]

/-- The digit of the table `upperhex`. -/
def upperhex (n : Nat) : Char :=
  [ '0', '1', '2', '3', '4', '5', '6', '7', '8', '9', 'A', 'B', 'C', 'D', 'E', 'F'].getD n '0'

/-- The function `shouldEscape` in the mode `encodeQueryComponent`: every byte
but the unreserved ones (letters, digits, `-`, `_`, `.`, `~`) is escaped. -/
def shouldEscape (b : Nat) : Bool :=
  !(('a'.toNat ≤ b && b ≤ 'z'.toNat) || ('A'.toNat ≤ b && b ≤ 'Z'.toNat)
    || ('0'.toNat ≤ b && b ≤ '9'.toNat)
    || b == '-'.toNat || b == '_'.toNat || b == '.'.toNat || b == '~'.toNat)

/-- One byte, escaped for a query component: a space is written `+`, a byte to
escape is written `%XX`. -/
def escapeByte (b : Nat) : Str :=
  if b == ' '.toNat then ['+']
  else if shouldEscape b then ['%', upperhex (b / 16), upperhex (b % 16)]
  else [Char.ofNat b]

/-- The function `url.QueryEscape`. -/
def QueryEscape (s : Str) : Str :=
  s.flatMap (fun c => (utf8Bytes c).flatMap escapeByte)

/-- Does the text start with `old`. -/
def startsWith (old : Str) (s : Str) : Bool :=
  s.take old.length == old

/-- The loop of `strings.Replace` for a non-empty `old` and no limit (`n = -1`):
the text is read from the left, `skip` counts the characters of an occurrence
of `old` that are still to be passed over. -/
def replaceFrom (old new : Str) : Nat → Str → Str
  | _, [] => []
  | skip + 1, _ :: rest => replaceFrom old new skip rest
  | 0, c :: rest =>
    if startsWith old (c :: rest) then new ++ replaceFrom old new (old.length - 1) rest
    else c :: replaceFrom old new 0 rest

/-- The call `strings.Replace(s, old, new, -1)` for a non-empty `old`: every
occurrence of `old`, found from the left and not overlapping, becomes `new`. -/
def stringsReplace (s old new : Str) : Str :=
  replaceFrom old new 0 s

/-! ## Configuration and collaborators -/

/-- Modelled from the spec: the type of a replacement rule is declared outside
this file; the spec describes a rule as a (pattern, replacement) pair.  The
pattern is taken here as a plain text, a pattern without operators. -/
structure ReplacementRule where
  pattern : Str
  replacement : Str
  deriving DecidableEq, Repr

/-- Modelled from the spec: the cleanup pass of the URL template engine, which
is declared outside this file: "every configured ReplacementRule is applied in
order over the whole string". -/
def applyReplacementRules (rules : List ReplacementRule) (url : Str) : Str :=
  rules.foldl (fun u r => stringsReplace u r.pattern r.replacement) url

/-- The fields of `scraperTypeConfig` that this file reads. -/
structure scraperTypeConfig where
  Scraper : Str
  QueryURL : Str
  /-- the value `nil` is `none` -/
  QueryURLReplacements : Option (List ReplacementRule)
  deriving DecidableEq, Repr

/-- The debug options of a scraper configuration. -/
structure DebugOptions where
  PrintHTML : Bool
  deriving DecidableEq, Repr

/-- The fields of `config` that this file reads.  `JsonScrapers` is a Go map to
pointers: a missing name and a nil pointer are both `none`. -/
structure config (Mapped : Type) where
  JsonScrapers : Str → Option Mapped
  DebugOptions : Option DebugOptions

/-- The type `jsonScraper`. -/
structure jsonScraper (Mapped GlobalConfig Txn : Type) where
  scraper : scraperTypeConfig
  config : config Mapped
  globalConfig : GlobalConfig
  txnManager : Txn

/-- The type `jsonQuery`. -/
structure jsonQuery (Mapped GlobalConfig Txn : Type) where
  doc : Str
  scraper : jsonScraper Mapped GlobalConfig Txn

/-- What a call does to the outside, in the order it happens. -/
inductive Event
  /-- a call of the package function `loadURL` on that URL -/
  | fetch (url : Str)
  /-- a call of `constructURL`, with the URL it built -/
  | construct (url : Str)
  deriving DecidableEq, Repr

/-- A Go result `(value, error)` together with the events of the call. -/
structure Ret (α : Type) where
  val : α
  err : Option GoError
  trace : List Event

/-- A reader over a response body: what `ioutil.ReadAll` returns on it. -/
abbrev Reader := Except GoError Str

/-- The functions of the package that are declared outside this file, and the
storage they use.  The scrape methods of `mappedScraper` take their receiver
as the pointer it is (`none` is the nil pointer); they may fetch further
documents, so they return their events too. -/
structure Collaborators (Mapped GlobalConfig Txn Params : Type)
    (SceneInput GalleryInput StoredScene StoredGallery : Type)
    (Performer Scene Gallery Movie : Type) where
  /-- the package function `loadURL(url, config, globalConfig)` -/
  loadURL : Str → config Mapped → GlobalConfig → Except GoError Reader
  /-- the function `replaceURL(url, scraperConfig)` -/
  replaceURL : Str → scraperTypeConfig → Str
  sceneFromUpdateFragment : SceneInput → Txn → Except GoError (Option StoredScene)
  galleryFromUpdateFragment : GalleryInput → Txn → Except GoError (Option StoredGallery)
  queryURLParametersFromScene : StoredScene → Params
  queryURLParametersFromGallery : StoredGallery → Params
  /-- the method `applyReplacements`, which updates the parameters in place -/
  applyReplacements : Params → List ReplacementRule → Params
  /-- the method `constructURL` of the parameters, on a template -/
  constructURL : Params → Str → Str
  scrapePerformer : Option Mapped → jsonQuery Mapped GlobalConfig Txn → Ret (Option Performer)
  scrapePerformers : Option Mapped → jsonQuery Mapped GlobalConfig Txn → Ret (List Performer)
  scrapeScene : Option Mapped → jsonQuery Mapped GlobalConfig Txn → Ret (Option Scene)
  scrapeGallery : Option Mapped → jsonQuery Mapped GlobalConfig Txn → Ret (Option Gallery)
  scrapeMovie : Option Mapped → jsonQuery Mapped GlobalConfig Txn → Ret (Option Movie)

/-- The part of the JSON library that `runQuery` uses, on its type `Result`. -/
structure Gjson (Result : Type) where
  Get : Str → Str → Result
  Exists : Result → Bool
  IsArray : Result → Bool
  /-- the (key, value) pairs that `ForEach` passes to its iterator, in order:
  for an array, its elements -/
  entries : Result → List (Result × Result)
  String : Result → Str

section Operations

variable {Mapped GlobalConfig Txn Params : Type}
variable {SceneInput GalleryInput StoredScene StoredGallery : Type}
variable {Performer Scene Gallery Movie : Type}
variable {Result : Type}

/-- The error of a scraper name without a mapping. -/
def notFoundInConfig (name : Str) : GoError :=
  "json scraper with name ".toList ++ name ++ " not found in config".toList

def jsonScraper.getJsonScraper (s : jsonScraper Mapped GlobalConfig Txn) : Option Mapped :=
  s.config.JsonScrapers s.scraper.Scraper

def jsonScraper.getJsonQuery (s : jsonScraper Mapped GlobalConfig Txn) (doc : Str) :
    jsonQuery Mapped GlobalConfig Txn :=
  { doc := doc, scraper := s }

def jsonScraper.loadURL
    (c : Collaborators Mapped GlobalConfig Txn Params SceneInput GalleryInput StoredScene
      StoredGallery Performer Scene Gallery Movie)
    (s : jsonScraper Mapped GlobalConfig Txn) (url : Str) : Ret Str :=
  match c.loadURL url s.config s.globalConfig with
  | .error err => ⟨[], some err, [.fetch url]⟩
  | .ok r =>
    match r with
    | .error err => ⟨[], some err, [.fetch url]⟩
    | .ok doc =>
      let docStr := doc
      if !gjsonValid docStr then
        -- attempt to convert JSONP to JSON
        let docStr := replaceJSONP docStr
        if !gjsonValid docStr then
          ⟨[], some "not valid json".toList, [.fetch url]⟩
        else ⟨docStr, none, [.fetch url]⟩
      else ⟨docStr, none, [.fetch url]⟩

def jsonScraper.scrapeURL
    (c : Collaborators Mapped GlobalConfig Txn Params SceneInput GalleryInput StoredScene
      StoredGallery Performer Scene Gallery Movie)
    (s : jsonScraper Mapped GlobalConfig Txn) (url : Str) : Ret (Str × Option Mapped) :=
  let scraper := s.getJsonScraper
  if scraper.isNone then
    ⟨([], none), some (notFoundInConfig s.scraper.Scraper), []⟩
  else
    let r := s.loadURL c url
    match r.err with
    | some err => ⟨([], none), some err, r.trace⟩
    | none => ⟨(r.val, scraper), none, r.trace⟩

def jsonScraper.scrapePerformerByURL
    (c : Collaborators Mapped GlobalConfig Txn Params SceneInput GalleryInput StoredScene
      StoredGallery Performer Scene Gallery Movie)
    (s : jsonScraper Mapped GlobalConfig Txn) (url : Str) : Ret (Option Performer) :=
  let u := c.replaceURL url s.scraper
  let r := s.scrapeURL c u
  match r.err with
  | some err => ⟨none, some err, r.trace⟩
  | none =>
    let q := s.getJsonQuery r.val.1
    let out := c.scrapePerformer r.val.2 q
    ⟨out.val, out.err, r.trace ++ out.trace⟩

def jsonScraper.scrapeSceneByURL
    (c : Collaborators Mapped GlobalConfig Txn Params SceneInput GalleryInput StoredScene
      StoredGallery Performer Scene Gallery Movie)
    (s : jsonScraper Mapped GlobalConfig Txn) (url : Str) : Ret (Option Scene) :=
  let u := c.replaceURL url s.scraper
  let r := s.scrapeURL c u
  match r.err with
  | some err => ⟨none, some err, r.trace⟩
  | none =>
    let q := s.getJsonQuery r.val.1
    let out := c.scrapeScene r.val.2 q
    ⟨out.val, out.err, r.trace ++ out.trace⟩

def jsonScraper.scrapeGalleryByURL
    (c : Collaborators Mapped GlobalConfig Txn Params SceneInput GalleryInput StoredScene
      StoredGallery Performer Scene Gallery Movie)
    (s : jsonScraper Mapped GlobalConfig Txn) (url : Str) : Ret (Option Gallery) :=
  let u := c.replaceURL url s.scraper
  let r := s.scrapeURL c u
  match r.err with
  | some err => ⟨none, some err, r.trace⟩
  | none =>
    let q := s.getJsonQuery r.val.1
    let out := c.scrapeGallery r.val.2 q
    ⟨out.val, out.err, r.trace ++ out.trace⟩

def jsonScraper.scrapeMovieByURL
    (c : Collaborators Mapped GlobalConfig Txn Params SceneInput GalleryInput StoredScene
      StoredGallery Performer Scene Gallery Movie)
    (s : jsonScraper Mapped GlobalConfig Txn) (url : Str) : Ret (Option Movie) :=
  let u := c.replaceURL url s.scraper
  let r := s.scrapeURL c u
  match r.err with
  | some err => ⟨none, some err, r.trace⟩
  | none =>
    let q := s.getJsonQuery r.val.1
    let out := c.scrapeMovie r.val.2 q
    ⟨out.val, out.err, r.trace ++ out.trace⟩

/-- The constant `placeholder` of `scrapePerformersByName`. -/
def placeholder : Str := ['{', '}']

/-- The pieces of a template that lie between the occurrences of the
placeholder, the occurrences being found from the left. -/
def splitPlaceholder : Str → List Str
  | [] => [[]]
  | '{' :: '}' :: rest => [] :: splitPlaceholder rest
  | c :: rest =>
    match splitPlaceholder rest with
    | [] => [[c]]
    | piece :: pieces => (c :: piece) :: pieces

def jsonScraper.scrapePerformersByName
    (c : Collaborators Mapped GlobalConfig Txn Params SceneInput GalleryInput StoredScene
      StoredGallery Performer Scene Gallery Movie)
    (s : jsonScraper Mapped GlobalConfig Txn) (name : Str) : Ret (List Performer) :=
  let scraper := s.getJsonScraper
  if scraper.isNone then
    ⟨[], some (notFoundInConfig s.scraper.Scraper), []⟩
  else
    -- replace the placeholder string with the URL-escaped name
    let escapedName := QueryEscape name
    let url := s.scraper.QueryURL
    let url := stringsReplace url placeholder escapedName
    let r := s.loadURL c url
    match r.err with
    | some err => ⟨[], some err, r.trace⟩
    | none =>
      let q := s.getJsonQuery r.val
      let out := c.scrapePerformers scraper q
      ⟨out.val, out.err, r.trace ++ out.trace⟩

def jsonScraper.scrapePerformerByFragment {PerformerInput : Type}
    (_s : jsonScraper Mapped GlobalConfig Txn) (_scrapedPerformer : PerformerInput) :
    Ret (Option Performer) :=
  ⟨none, some "scrapePerformerByFragment not supported for json scraper".toList, []⟩

def jsonScraper.scrapeSceneByFragment
    (c : Collaborators Mapped GlobalConfig Txn Params SceneInput GalleryInput StoredScene
      StoredGallery Performer Scene Gallery Movie)
    (s : jsonScraper Mapped GlobalConfig Txn) (scene : SceneInput) : Ret (Option Scene) :=
  match c.sceneFromUpdateFragment scene s.txnManager with
  | .error err => ⟨none, some err, []⟩
  | .ok none => ⟨none, some "no scene found".toList, []⟩
  | .ok (some storedScene) =>
    -- construct the URL
    let queryURL := c.queryURLParametersFromScene storedScene
    let queryURL :=
      match s.scraper.QueryURLReplacements with
      | some rules => c.applyReplacements queryURL rules
      | none => queryURL
    let url := c.constructURL queryURL s.scraper.QueryURL
    let scraper := s.getJsonScraper
    if scraper.isNone then
      ⟨none, some (notFoundInConfig s.scraper.Scraper), [.construct url]⟩
    else
      let r := s.loadURL c url
      match r.err with
      | some err => ⟨none, some err, .construct url :: r.trace⟩
      | none =>
        let q := s.getJsonQuery r.val
        let out := c.scrapeScene scraper q
        ⟨out.val, out.err, .construct url :: (r.trace ++ out.trace)⟩

def jsonScraper.scrapeGalleryByFragment
    (c : Collaborators Mapped GlobalConfig Txn Params SceneInput GalleryInput StoredScene
      StoredGallery Performer Scene Gallery Movie)
    (s : jsonScraper Mapped GlobalConfig Txn) (gallery : GalleryInput) : Ret (Option Gallery) :=
  match c.galleryFromUpdateFragment gallery s.txnManager with
  | .error err => ⟨none, some err, []⟩
  | .ok none => ⟨none, some "no scene found".toList, []⟩
  | .ok (some storedGallery) =>
    -- construct the URL
    let queryURL := c.queryURLParametersFromGallery storedGallery
    let queryURL :=
      match s.scraper.QueryURLReplacements with
      | some rules => c.applyReplacements queryURL rules
      | none => queryURL
    let url := c.constructURL queryURL s.scraper.QueryURL
    let scraper := s.getJsonScraper
    if scraper.isNone then
      ⟨none, some (notFoundInConfig s.scraper.Scraper), [.construct url]⟩
    else
      let r := s.loadURL c url
      match r.err with
      | some err => ⟨none, some err, .construct url :: r.trace⟩
      | none =>
        let q := s.getJsonQuery r.val
        let out := c.scrapeGallery scraper q
        ⟨out.val, out.err, .construct url :: (r.trace ++ out.trace)⟩

/-- The loop of `Result.ForEach`: the iterator is called on each entry in
order, and the loop ends as soon as the iterator returns `false`.  The state
`σ` stands for the variables the iterator closes over. -/
def forEachLoop {σ : Type} (iterator : σ → Result → Result → σ × Bool) :
    List (Result × Result) → σ → σ
  | [], acc => acc
  | (k, v) :: rest, acc =>
    let step := iterator acc k v
    if step.2 then forEachLoop iterator rest step.1 else step.1

/-- The method `Result.ForEach`. -/
def Gjson.ForEach {σ : Type} (lib : Gjson Result) (t : Result)
    (iterator : σ → Result → Result → σ × Bool) (init : σ) : σ :=
  forEachLoop iterator (lib.entries t) init

def jsonQuery.runQuery (lib : Gjson Result) (q : jsonQuery Mapped GlobalConfig Txn)
    (selector : Str) : List Str :=
  let value := lib.Get q.doc selector
  if !lib.Exists value then
    []
  else
    let ret : List Str := []
    if lib.IsArray value then
      lib.ForEach value (fun ret _k v => (ret ++ [lib.String v], true)) ret
    else
      ret ++ [lib.String value]

/-- The method `subScrape`: the query it returns (`none` is the nil query) and
the events of the call. -/
def jsonQuery.subScrape
    (c : Collaborators Mapped GlobalConfig Txn Params SceneInput GalleryInput StoredScene
      StoredGallery Performer Scene Gallery Movie)
    (q : jsonQuery Mapped GlobalConfig Txn) (value : Str) :
    Option (jsonQuery Mapped GlobalConfig Txn) × List Event :=
  let r := q.scraper.loadURL c value
  match r.err with
  | some _ => (none, r.trace)
  | none => (some (q.scraper.getJsonQuery r.val), r.trace)

end Operations

/-! ## A small instance, for concrete runs -/

/-- Collaborators over trivial record types: the fetch collaborator is the
table `serve`, the storage knows one scene and one gallery (number `1`), the
parameters of a stored entity are its number, and `constructURL` writes the
number in place of `{n}`.  The mapped scraper returns an empty record and
fetches nothing. -/
def tableCollaborators (serve : Str → Except GoError Reader) :
    Collaborators Unit Unit Unit Nat Nat Nat Nat Nat Unit Unit Unit Unit where
  loadURL := fun url _ _ => serve url
  replaceURL := fun url _ => url
  sceneFromUpdateFragment := fun id _ => .ok (if id = 1 then some 1 else none)
  galleryFromUpdateFragment := fun id _ => .ok (if id = 1 then some 1 else none)
  queryURLParametersFromScene := fun n => n
  queryURLParametersFromGallery := fun n => n
  applyReplacements := fun n _ => n
  constructURL := fun n template => stringsReplace template ['{', 'n', '}'] (Nat.repr n).toList
  scrapePerformer := fun _ _ => ⟨some (), none, []⟩
  scrapePerformers := fun _ _ => ⟨[()], none, []⟩
  scrapeScene := fun _ _ => ⟨some (), none, []⟩
  scrapeGallery := fun _ _ => ⟨some (), none, []⟩
  scrapeMovie := fun _ _ => ⟨some (), none, []⟩

/-- A server with a few documents: a JSONP payload, the same document as plain
JSON, an HTML page, the text `[-]` and an empty search result; any other URL
fails. -/
def sampleServe (url : Str) : Except GoError Reader :=
  if url = "http://example/jsonp".toList then .ok (.ok "callback(\x7b\"a\":1\x7d);".toList)
  else if url = "http://example/json".toList then .ok (.ok "\x7b\"a\":1\x7d".toList)
  else if url = "http://example/html".toList then .ok (.ok "<html><body>hi</body></html>".toList)
  else if url = "http://example/minus".toList then .ok (.ok "[-]".toList)
  else if url = "http://example/search?q=foo+bar".toList then .ok (.ok "[]".toList)
  else .error "connection refused".toList

/-- A scraper named `demo` whose mapping is present when `mapped` is set. -/
def sampleScraper (mapped : Bool) (rules : Option (List ReplacementRule)) :
    jsonScraper Unit Unit Unit where
  scraper :=
    { Scraper := "demo".toList
      QueryURL := "http://example/search?q=\x7b\x7d".toList
      QueryURLReplacements := rules }
  config :=
    { JsonScrapers := fun name => if mapped && name = "demo".toList then some () else none
      DebugOptions := none }
  globalConfig := ()
  txnManager := ()

/-- A document tree, for a small instance of the JSON library. -/
inductive Node
  | missing
  | scalar (text : Str)
  | array (items : List Node)

/-- A small instance of the JSON library: one document, `{"tags":["a","b"],
"name":"x","none":[]}`, and the three selectors `tags`, `name` and `none`. -/
def sampleGjson : Gjson Node where
  Get := fun doc selector =>
    if doc = "\x7b\"tags\":[\"a\",\"b\"],\"name\":\"x\",\"none\":[]\x7d".toList then
      if selector = "tags".toList then .array [.scalar ['a'], .scalar ['b']]
      else if selector = "name".toList then .scalar ['x']
      else if selector = "none".toList then .array []
      else .missing
    else .missing
  Exists := fun r => match r with
    | .missing => false
    | _ => true
  IsArray := fun r => match r with
    | .array _ => true
    | _ => false
  entries := fun r => match r with
    | .array items => items.map (fun v => (.missing, v))
    | .missing => []
    | v => [(.missing, v)]
  String := fun r => match r with
    | .scalar text => text
    | _ => []

/-- A query over the document of `sampleGjson`. -/
def sampleQuery : jsonQuery Unit Unit Unit :=
  (sampleScraper true none).getJsonQuery
    "\x7b\"tags\":[\"a\",\"b\"],\"name\":\"x\",\"none\":[]\x7d".toList

/-! ## Sample runs of the pattern and of the validator -/

theorem replaceJSONP_samples :
    replaceJSONP "callback(\x7b\"a\":1\x7d);".toList = "\x7b\"a\":1\x7d".toList
      ∧ replaceJSONP "cb([1,2])".toList = "[1,2]".toList
      ∧ replaceJSONP "a(b(c)".toList = ['c']
      ∧ replaceJSONP "a(b)c);".toList = "b)c".toList
      ∧ replaceJSONP "<html>(1)".toList = ['1']
      ∧ replaceJSONP "cb(1);\n".toList = "cb(1);\n".toList
      ∧ replaceJSONP "\x7bcb(1)".toList = "\x7bcb(1)".toList
      ∧ replaceJSONP "(1)".toList = "(1)".toList
      ∧ replaceJSONP "cb()".toList = "cb()".toList := by
  decide

theorem gjsonValid_samples :
    gjsonValid "\x7b\"a\":1\x7d".toList = true
      ∧ gjsonValid " \x7b\"a\": [1, -2.5e-3, true, false, null, \"x\\u00e9\\n\"] \x7d\n".toList = true
      ∧ gjsonValid "[]".toList = true
      ∧ gjsonValid "0".toList = true
      ∧ gjsonValid "\"text\"".toList = true
      ∧ gjsonValid "[-]".toList = true
      ∧ gjsonValid "-.5".toList = true
      ∧ gjsonValid "-e3".toList = true
      ∧ gjsonValid "\x7b\"a\":-\x7d".toList = true
      ∧ gjsonValid "- ".toList = true
      ∧ gjsonValid "-12.5E+3".toList = true
      ∧ gjsonValid [] = false
      ∧ gjsonValid "callback(\x7b\"a\":1\x7d);".toList = false
      ∧ gjsonValid "<html>".toList = false
      ∧ gjsonValid "[1,]".toList = false
      ∧ gjsonValid "\x7b\"a\":1,\x7d".toList = false
      ∧ gjsonValid "\x7b\"a\" 1\x7d".toList = false
      ∧ gjsonValid "[1\x7d".toList = false
      ∧ gjsonValid "01".toList = false
      ∧ gjsonValid "-".toList = false
      ∧ gjsonValid "[-".toList = false
      ∧ gjsonValid "-.".toList = false
      ∧ gjsonValid "-e".toList = false
      ∧ gjsonValid "--1".toList = false
      ∧ gjsonValid "-01".toList = false
      ∧ gjsonValid "1.".toList = false
      ∧ gjsonValid "1e+".toList = false
      ∧ gjsonValid "tru".toList = false
      ∧ gjsonValid "\"a\\x\"".toList = false
      ∧ gjsonValid "\"a\tb\"".toList = false
      ∧ gjsonValid "1 2".toList = false := by
  decide

/-! ## The validator refuses a text that ends in `)` or `;` -/

theorem vrun_snoc (st : Option VState) (s : Str) (c : Char) :
    vrun st (s ++ [c]) = (vrun st s).bind (fun st => vstep st c) := by
  simp [vrun, List.foldl_append]

theorem afterValue_paren (stack : List Container) : afterValue ')' stack = none := by
  unfold afterValue
  rcases stack with _ | ⟨k, up⟩
  · decide
  · cases k <;> simp [isSpace]

theorem afterValue_semicolon (stack : List Container) : afterValue ';' stack = none := by
  unfold afterValue
  rcases stack with _ | ⟨k, up⟩
  · decide
  · cases k <;> simp [isSpace]

theorem vstep_paren (st st' : VState) (h : vstep st ')' = some st') :
    accepting st' = false := by
  obtain ⟨lex, stack⟩ := st
  cases lex <;>
    simp [vstep, startValue, afterValue_paren, stepKeyword, isSpace, isDigit, isHex] at h
  case str key => subst h; rfl
  case keyword k => cases k <;> simp at h

theorem vstep_semicolon (st st' : VState) (h : vstep st ';' = some st') :
    accepting st' = false := by
  obtain ⟨lex, stack⟩ := st
  cases lex <;>
    simp [vstep, startValue, afterValue_semicolon, stepKeyword, isSpace, isDigit, isHex] at h
  case str key => subst h; rfl
  case keyword k => cases k <;> simp at h

/-- A text that ends in `)` is not valid JSON. -/
theorem gjsonValid_snoc_paren (s : Str) : gjsonValid (s ++ [')']) = false := by
  unfold gjsonValid
  rw [vrun_snoc]
  cases hs : vrun (some (Lex.value, [])) s with
  | none => rfl
  | some st =>
    cases hc : vstep st ')' with
    | none => simp [hc]
    | some st' => simp [hc, vstep_paren st st' hc]

/-- A text that ends in `;` is not valid JSON. -/
theorem gjsonValid_snoc_semicolon (s : Str) : gjsonValid (s ++ [';']) = false := by
  unfold gjsonValid
  rw [vrun_snoc]
  cases hs : vrun (some (Lex.value, [])) s with
  | none => rfl
  | some st =>
    cases hc : vstep st ';' with
    | none => simp [hc]
    | some st' => simp [hc, vstep_semicolon st st' hc]

/-! ## The JSONP pattern on a wrapped text -/

theorem matchGroup_cons_some (c : Char) (rest g : Str) (h : matchGroup rest = some g) :
    matchGroup (c :: rest) = some (c :: g) := by
  rw [matchGroup, h]

theorem matchGroup_cons_none (c : Char) (rest : Str) (h : matchGroup rest = none) :
    matchGroup (c :: rest) = if matchClose rest then some [c] else none := by
  rw [matchGroup, h]

theorem matchGroup_close (c : Char) (J : Str) :
    matchGroup (c :: (J ++ [')'])) = some (c :: J) := by
  induction J generalizing c with
  | nil =>
    have h : matchGroup [')'] = none := by decide
    rw [List.nil_append, matchGroup_cons_none c _ h]
    rfl
  | cons d J ih => exact matchGroup_cons_some c _ _ (ih d)

theorem matchGroup_close_semicolon (c : Char) (J : Str) :
    matchGroup (c :: (J ++ [')', ';'])) = some (c :: J) := by
  induction J generalizing c with
  | nil =>
    have h : matchGroup [')', ';'] = none := by decide
    rw [List.nil_append, matchGroup_cons_none c _ h]
    rfl
  | cons d J ih => exact matchGroup_cons_some c _ _ (ih d)

theorem matchJSONP_cons (c : Char) (rest : Str) :
    matchJSONP (c :: rest) =
      if notOpen c then
        match matchJSONP rest with
        | some g => some g
        | none =>
          match rest with
          | '(' :: body => matchGroup body
          | _ => none
      else none := by
  rfl

/-- A text that starts with `{` or `[` does not match the pattern. -/
theorem matchJSONP_open (c : Char) (s : Str) (hc : c = '{' ∨ c = '[') :
    matchJSONP (c :: s) = none := by
  have h : notOpen c = false := by rcases hc with rfl | rfl <;> decide
  rw [matchJSONP_cons, h]
  rfl

theorem matchJSONP_cons_some (c : Char) (rest g : Str) (hc : notOpen c = true)
    (h : matchJSONP rest = some g) : matchJSONP (c :: rest) = some g := by
  rw [matchJSONP_cons, hc, h]
  rfl

theorem matchJSONP_cons_none (c : Char) (body : Str) (hc : notOpen c = true)
    (h : matchJSONP ('(' :: body) = none) :
    matchJSONP (c :: '(' :: body) = matchGroup body := by
  rw [matchJSONP_cons, hc, h]
  rfl

/-- The pattern on `P(…`: when what follows `(` starts with `{` or `[` and has
a match for the group, the prefix of the match is `P` and the group is taken
from what follows. -/
theorem matchJSONP_wrap (P : Str) (c : Char) (rest g : Str) (hP : P ≠ [])
    (hopen : ∀ x ∈ P, notOpen x = true) (hc : c = '{' ∨ c = '[')
    (hg : matchGroup (c :: rest) = some g) :
    matchJSONP (P ++ '(' :: c :: rest) = some g := by
  induction P with
  | nil => exact absurd rfl hP
  | cons p P ih =>
    have hp : notOpen p = true := hopen p (List.mem_cons_self _ _)
    by_cases hnil : P = []
    · subst hnil
      have h0 : matchJSONP (c :: rest) = none := matchJSONP_open c rest hc
      have h1 : matchJSONP ('(' :: c :: rest) = none := by
        have hparen : notOpen '(' = true := by decide
        rw [matchJSONP_cons, hparen, h0]
        rcases hc with rfl | rfl <;> rfl
      rw [List.cons_append, List.nil_append, matchJSONP_cons_none p _ hp h1, hg]
    · have h := ih hnil (fun x hx => hopen x (List.mem_cons_of_mem _ hx))
      rw [List.cons_append]
      exact matchJSONP_cons_some p _ g hp h

/-- The repair of `P(J)` and of `P(J);` is `J`. -/
theorem replaceJSONP_wrap (P J : Str) (hP : P ≠ []) (hopen : ∀ x ∈ P, notOpen x = true)
    (hJ : J.head? = some '{' ∨ J.head? = some '[') :
    replaceJSONP (P ++ '(' :: (J ++ [')'])) = J
      ∧ replaceJSONP (P ++ '(' :: (J ++ [')', ';'])) = J := by
  obtain ⟨c, rest, rfl, hc⟩ : ∃ c rest, J = c :: rest ∧ (c = '{' ∨ c = '[') := by
    cases J with
    | nil => simp at hJ
    | cons c rest => exact ⟨c, rest, rfl, by simpa using hJ⟩
  constructor
  · unfold replaceJSONP
    rw [List.cons_append, matchJSONP_wrap P c _ _ hP hopen hc (matchGroup_close c rest)]
  · unfold replaceJSONP
    rw [List.cons_append, matchJSONP_wrap P c _ _ hP hopen hc (matchGroup_close_semicolon c rest)]

/-! ## Document loading -/

section Loading

variable {Mapped GlobalConfig Txn Params : Type}
variable {SceneInput GalleryInput StoredScene StoredGallery : Type}
variable {Performer Scene Gallery Movie : Type}

/-- What `loadURL` returns on a fetched payload. -/
theorem loadURL_fetched
    (c : Collaborators Mapped GlobalConfig Txn Params SceneInput GalleryInput StoredScene
      StoredGallery Performer Scene Gallery Movie)
    (s : jsonScraper Mapped GlobalConfig Txn) (url payload : Str)
    (hfetch : c.loadURL url s.config s.globalConfig = .ok (.ok payload)) :
    s.loadURL c url =
      if gjsonValid payload then ⟨payload, none, [.fetch url]⟩
      else if gjsonValid (replaceJSONP payload) then ⟨replaceJSONP payload, none, [.fetch url]⟩
      else ⟨[], some "not valid json".toList, [.fetch url]⟩ := by
  unfold jsonScraper.loadURL
  rw [hfetch]
  cases h1 : gjsonValid payload <;> cases h2 : gjsonValid (replaceJSONP payload) <;> simp [h1, h2]

/-- C1: a payload `P(J)` or `P(J);`, where `J` is valid JSON that starts with
`{` or `[` and the callback name `P` is not empty and has neither `{` nor `[`,
is loaded without error and the document returned is exactly `J`, the document
that loading the payload `J` itself returns. -/
theorem jsonp_repair_loads
    (c : Collaborators Mapped GlobalConfig Txn Params SceneInput GalleryInput StoredScene
      StoredGallery Performer Scene Gallery Movie)
    (s : jsonScraper Mapped GlobalConfig Txn) (url url' P J payload : Str)
    (hJ : gjsonValid J = true)
    (hhead : J.head? = some '{' ∨ J.head? = some '[')
    (hP : P ≠ []) (hopen : ∀ x ∈ P, x ≠ '{' ∧ x ≠ '[')
    (hpayload : payload = P ++ '(' :: (J ++ [')']) ∨ payload = P ++ '(' :: (J ++ [')', ';']))
    (hfetch : c.loadURL url s.config s.globalConfig = .ok (.ok payload))
    (hdirect : c.loadURL url' s.config s.globalConfig = .ok (.ok J)) :
    (s.loadURL c url).val = J ∧ (s.loadURL c url).err = none
      ∧ (s.loadURL c url').val = J ∧ (s.loadURL c url').err = none := by
  have hopen' : ∀ x ∈ P, notOpen x = true := by
    intro x hx
    have := hopen x hx
    simp [notOpen, this.1, this.2]
  have hrep := replaceJSONP_wrap P J hP hopen' hhead
  have hinvalid : gjsonValid payload = false := by
    rcases hpayload with rfl | rfl
    · have : P ++ '(' :: (J ++ [')']) = (P ++ '(' :: J) ++ [')'] := by simp
      rw [this]; exact gjsonValid_snoc_paren _
    · have : P ++ '(' :: (J ++ [')', ';']) = (P ++ '(' :: (J ++ [')'])) ++ [';'] := by simp
      rw [this]; exact gjsonValid_snoc_semicolon _
  have hrepair : replaceJSONP payload = J := by
    rcases hpayload with rfl | rfl
    · exact hrep.1
    · exact hrep.2
  rw [loadURL_fetched c s url payload hfetch, loadURL_fetched c s url' J hdirect]
  simp [hinvalid, hrepair, hJ]

theorem jsonp_repair_loads_witness :
    ((sampleScraper true none).loadURL (tableCollaborators sampleServe)
        "http://example/jsonp".toList).val = "\x7b\"a\":1\x7d".toList
      ∧ ((sampleScraper true none).loadURL (tableCollaborators sampleServe)
        "http://example/jsonp".toList).err = none
      ∧ ((sampleScraper true none).loadURL (tableCollaborators sampleServe)
        "http://example/json".toList).val = "\x7b\"a\":1\x7d".toList
      ∧ ((sampleScraper true none).loadURL (tableCollaborators sampleServe)
        "http://example/json".toList).err = none :=
  jsonp_repair_loads (tableCollaborators sampleServe) (sampleScraper true none)
    "http://example/jsonp".toList "http://example/json".toList "callback".toList
    "\x7b\"a\":1\x7d".toList "callback(\x7b\"a\":1\x7d);".toList
    (by decide) (by decide) (by decide) (by decide) (by decide) rfl rfl

/-- C2: on a fetched payload, `loadURL` returns the error "not valid json"
exactly when neither the payload nor its JSONP repair (the captured group when
the pattern matches the payload, the payload itself otherwise) is valid JSON,
and the document returned with that error is empty; so a payload that is
neither valid JSON nor matched by the pattern is rejected. -/
theorem not_valid_json_iff
    (c : Collaborators Mapped GlobalConfig Txn Params SceneInput GalleryInput StoredScene
      StoredGallery Performer Scene Gallery Movie)
    (s : jsonScraper Mapped GlobalConfig Txn) (url payload : Str)
    (hfetch : c.loadURL url s.config s.globalConfig = .ok (.ok payload)) :
    ((s.loadURL c url).err = some "not valid json".toList ↔
        (gjsonValid payload = false ∧
          gjsonValid (match matchJSONP payload with
            | some group => group
            | none => payload) = false))
      ∧ ((s.loadURL c url).err = some "not valid json".toList → (s.loadURL c url).val = [])
      ∧ (gjsonValid payload = false → matchJSONP payload = none →
          (s.loadURL c url).err = some "not valid json".toList ∧ (s.loadURL c url).val = []) := by
  have hrepl : (match matchJSONP payload with
      | some group => group
      | none => payload) = replaceJSONP payload := rfl
  rw [hrepl, loadURL_fetched c s url payload hfetch]
  refine ⟨?_, ?_, ?_⟩
  · cases h1 : gjsonValid payload <;> cases h2 : gjsonValid (replaceJSONP payload) <;> simp
  · cases h1 : gjsonValid payload <;> cases h2 : gjsonValid (replaceJSONP payload) <;> simp
  · intro h1 hm
    have h2 : gjsonValid (replaceJSONP payload) = false := by
      unfold replaceJSONP
      rw [hm]
      exact h1
    simp [h1, h2]

theorem not_valid_json_iff_witness :
    (gjsonValid "<html><body>hi</body></html>".toList = false
      ∧ matchJSONP "<html><body>hi</body></html>".toList = none
      ∧ ((sampleScraper true none).loadURL (tableCollaborators sampleServe)
          "http://example/html".toList).err = some "not valid json".toList
      ∧ ((sampleScraper true none).loadURL (tableCollaborators sampleServe)
          "http://example/html".toList).val = [])
    ∧ (gjsonValid "[-]".toList = true
      ∧ ((sampleScraper true none).loadURL (tableCollaborators sampleServe)
          "http://example/minus".toList).err ≠ some "not valid json".toList) :=
  ⟨⟨by decide, by decide,
    (not_valid_json_iff (tableCollaborators sampleServe) (sampleScraper true none)
      "http://example/html".toList "<html><body>hi</body></html>".toList rfl).2.2
      (by decide) (by decide)⟩,
   ⟨by decide, fun h =>
    absurd ((not_valid_json_iff (tableCollaborators sampleServe) (sampleScraper true none)
      "http://example/minus".toList "[-]".toList rfl).1.mp h).1 (by decide)⟩⟩

/-- The text `[-]` passes the validator, so it is loaded as it is. -/
theorem loadURL_minus_sample :
    ((sampleScraper true none).loadURL (tableCollaborators sampleServe)
        "http://example/minus".toList).val = "[-]".toList
      ∧ ((sampleScraper true none).loadURL (tableCollaborators sampleServe)
        "http://example/minus".toList).err = none := by
  decide

end Loading

/-! ## Document query -/

section Query

variable {Mapped GlobalConfig Txn Result : Type}

/-- The iterator of `runQuery` never stops the loop: every entry is appended. -/
theorem forEachLoop_append (string : Result → Str) (entries : List (Result × Result))
    (acc : List Str) :
    forEachLoop (fun (ret : List Str) (_k v : Result) => (ret ++ [string v], true)) entries acc
      = acc ++ entries.map (fun e => string e.2) := by
  induction entries generalizing acc with
  | nil => simp [forEachLoop]
  | cons e entries ih =>
    obtain ⟨k, v⟩ := e
    simp [forEachLoop, ih]

/-- C3: when the selector resolves to an array node, `runQuery` returns the
string representations of the elements of the array, in document order: the
result has as many entries as the array has elements, and its i-th entry is the
string of the i-th element. -/
theorem runQuery_array (lib : Gjson Result) (q : jsonQuery Mapped GlobalConfig Txn)
    (selector : Str)
    (hexists : lib.Exists (lib.Get q.doc selector) = true)
    (harray : lib.IsArray (lib.Get q.doc selector) = true) :
    q.runQuery lib selector
        = (lib.entries (lib.Get q.doc selector)).map (fun e => lib.String e.2)
      ∧ (q.runQuery lib selector).length = (lib.entries (lib.Get q.doc selector)).length
      ∧ ∀ i (hi : i < (lib.entries (lib.Get q.doc selector)).length),
          (q.runQuery lib selector)[i]? =
            some (lib.String ((lib.entries (lib.Get q.doc selector)).get ⟨i, hi⟩).2) := by
  have h : q.runQuery lib selector
      = (lib.entries (lib.Get q.doc selector)).map (fun e => lib.String e.2) := by
    simp [jsonQuery.runQuery, hexists, harray, Gjson.ForEach, forEachLoop_append]
  refine ⟨h, ?_, ?_⟩
  · rw [h, List.length_map]
  · intro i hi
    rw [h]
    simp [List.getElem?_map, List.getElem?_eq_getElem hi]

theorem runQuery_array_witness :
    (sampleQuery.runQuery sampleGjson "tags".toList = [['a'], ['b']]
      ∧ (sampleQuery.runQuery sampleGjson "tags".toList).length = 2)
    ∧ sampleQuery.runQuery sampleGjson "none".toList = [] :=
  ⟨⟨(runQuery_array sampleGjson sampleQuery "tags".toList (by decide) (by decide)).1,
    (runQuery_array sampleGjson sampleQuery "tags".toList (by decide) (by decide)).2.1⟩,
   (runQuery_array sampleGjson sampleQuery "none".toList (by decide) (by decide)).1⟩

/-- C4: when the selector does not resolve to a node of the document,
`runQuery` returns the empty sequence (the function has no error result). -/
theorem runQuery_miss (lib : Gjson Result) (q : jsonQuery Mapped GlobalConfig Txn)
    (selector : Str)
    (hmiss : lib.Exists (lib.Get q.doc selector) = false) :
    q.runQuery lib selector = [] := by
  simp [jsonQuery.runQuery, hmiss]

theorem runQuery_miss_witness : sampleQuery.runQuery sampleGjson "absent".toList = [] :=
  runQuery_miss sampleGjson sampleQuery "absent".toList (by decide)

/-- C5: when the selector resolves to a node that is not an array, `runQuery`
returns exactly one element, the string representation of the node. -/
theorem runQuery_single (lib : Gjson Result) (q : jsonQuery Mapped GlobalConfig Txn)
    (selector : Str)
    (hexists : lib.Exists (lib.Get q.doc selector) = true)
    (hnotarray : lib.IsArray (lib.Get q.doc selector) = false) :
    q.runQuery lib selector = [lib.String (lib.Get q.doc selector)] := by
  simp [jsonQuery.runQuery, hexists, hnotarray]

theorem runQuery_single_witness : sampleQuery.runQuery sampleGjson "name".toList = [['x']] :=
  runQuery_single sampleGjson sampleQuery "name".toList (by decide) (by decide)

end Query

/-! ## Search by name -/

theorem replaceFrom_placeholder_here (new rest : Str) :
    replaceFrom placeholder new 0 ('{' :: '}' :: rest)
      = new ++ replaceFrom placeholder new 0 rest := by
  simp [replaceFrom, startsWith, placeholder]

theorem replaceFrom_placeholder_skip (new : Str) (c : Char) (rest : Str)
    (h : ¬ (c = '{' ∧ rest.head? = some '}')) :
    replaceFrom placeholder new 0 (c :: rest)
      = c :: replaceFrom placeholder new 0 rest := by
  have hs : startsWith placeholder (c :: rest) = false := by
    cases rest with
    | nil => simp [startsWith, placeholder]
    | cons d rest =>
      simp only [List.head?_cons, Option.some.injEq] at h
      simp [startsWith, placeholder]
      intro hc hd
      exact h ⟨hc, hd⟩
  simp [replaceFrom, hs]

/-- A piece without the placeholder, followed by the placeholder. -/
theorem replaceFrom_piece (new piece rest : Str) (h : ¬ placeholder <:+: piece) :
    replaceFrom placeholder new 0 (piece ++ '{' :: '}' :: rest)
      = piece ++ new ++ replaceFrom placeholder new 0 rest := by
  induction piece with
  | nil => simpa using replaceFrom_placeholder_here new rest
  | cons c piece ih =>
    have htail : ¬ placeholder <:+: piece := fun hin => h (List.IsInfix.trans hin
      (List.infix_cons (List.infix_refl _)))
    have hhere : ¬ (c = '{' ∧ (piece ++ '{' :: '}' :: rest).head? = some '}') := by
      rintro ⟨rfl, hd⟩
      cases piece with
      | nil => simp at hd
      | cons d piece =>
        simp at hd
        subst hd
        exact h ⟨[], piece, by simp [placeholder]⟩
    rw [List.cons_append, replaceFrom_placeholder_skip new c _ hhere, ih htail]
    simp

/-- A text without the placeholder is left as it is. -/
theorem replaceFrom_none (new piece : Str) (h : ¬ placeholder <:+: piece) :
    replaceFrom placeholder new 0 piece = piece := by
  induction piece with
  | nil => rfl
  | cons c piece ih =>
    have htail : ¬ placeholder <:+: piece := fun hin => h (List.IsInfix.trans hin
      (List.infix_cons (List.infix_refl _)))
    have hhere : ¬ (c = '{' ∧ piece.head? = some '}') := by
      rintro ⟨rfl, hd⟩
      cases piece with
      | nil => simp at hd
      | cons d piece =>
        simp at hd
        subst hd
        exact h ⟨[], piece, by simp [placeholder]⟩
    rw [replaceFrom_placeholder_skip new c _ hhere, ih htail]

/-- Replacing the placeholder in pieces joined by the placeholder joins the
pieces by the new text. -/
theorem stringsReplace_intercalate (new : Str) (pieces : List Str)
    (h : ∀ piece ∈ pieces, ¬ placeholder <:+: piece) :
    stringsReplace (placeholder.intercalate pieces) placeholder new
      = new.intercalate pieces := by
  unfold stringsReplace
  induction pieces with
  | nil => rfl
  | cons piece pieces ih =>
    cases pieces with
    | nil =>
      simpa [List.intercalate] using replaceFrom_none new piece (h piece (List.mem_cons_self _ _))
    | cons next pieces =>
      have hrest := ih (fun x hx => h x (List.mem_cons_of_mem _ hx))
      have hsplit : ∀ sep : Str, sep.intercalate (piece :: next :: pieces)
          = piece ++ sep ++ sep.intercalate (next :: pieces) := by
        intro sep
        simp [List.intercalate, List.intersperse]
      rw [hsplit, hsplit]
      have := replaceFrom_piece new piece (placeholder.intercalate (next :: pieces))
        (h piece (List.mem_cons_self _ _))
      simp only [placeholder, List.append_assoc, List.cons_append, List.nil_append] at this ⊢
      rw [this, ← hrest]
      rfl

/-! Every template is its pieces joined by the placeholder. -/

theorem intercalate_cons_cons (sep piece next : Str) (pieces : List Str) :
    sep.intercalate (piece :: next :: pieces) = piece ++ sep ++ sep.intercalate (next :: pieces) := by
  simp [List.intercalate, List.intersperse]

theorem splitPlaceholder_here (rest : Str) :
    splitPlaceholder ('{' :: '}' :: rest) = [] :: splitPlaceholder rest := by
  rw [splitPlaceholder]

theorem splitPlaceholder_skip (c : Char) (rest : Str)
    (hne : ∀ tail : Str, c = '{' → rest = '}' :: tail → False) :
    splitPlaceholder (c :: rest) =
      match splitPlaceholder rest with
      | [] => [[c]]
      | piece :: pieces => (c :: piece) :: pieces := by
  rw [splitPlaceholder]
  exact hne

theorem splitPlaceholder_ne_nil (t : Str) : splitPlaceholder t ≠ [] := by
  induction t using splitPlaceholder.induct with
  | case1 => simp [splitPlaceholder]
  | case2 rest ih => simp [splitPlaceholder_here]
  | case3 c rest hne hnil ih => exact absurd hnil ih
  | case4 c rest hne piece pieces hsplit ih => simp [splitPlaceholder_skip c rest hne, hsplit]

theorem splitPlaceholder_join (t : Str) : placeholder.intercalate (splitPlaceholder t) = t := by
  induction t using splitPlaceholder.induct with
  | case1 => simp [splitPlaceholder, List.intercalate]
  | case2 rest ih =>
    rw [splitPlaceholder_here]
    cases h : splitPlaceholder rest with
    | nil => exact absurd h (splitPlaceholder_ne_nil rest)
    | cons p ps =>
      rw [intercalate_cons_cons, ← h, ih]
      rfl
  | case3 c rest hne hnil ih => exact absurd hnil (splitPlaceholder_ne_nil rest)
  | case4 c rest hne piece pieces hsplit ih =>
    rw [splitPlaceholder_skip c rest hne, hsplit]
    rw [hsplit] at ih
    cases pieces with
    | nil =>
      simp [List.intercalate] at ih ⊢
      exact ih
    | cons q ps =>
      rw [intercalate_cons_cons] at ih
      simp only [intercalate_cons_cons, List.cons_append, List.append_assoc] at ih ⊢
      rw [ih]

theorem placeholder_infix_cons (c : Char) (piece : Str) (h : placeholder <:+: c :: piece) :
    (c = '{' ∧ piece.head? = some '}') ∨ placeholder <:+: piece := by
  rcases List.infix_cons_iff.mp h with hp | hi
  · left
    obtain ⟨t, ht⟩ := hp
    cases piece with
    | nil => simp [placeholder] at ht
    | cons d piece =>
      simp [placeholder] at ht
      exact ⟨ht.1.symm, by rw [List.head?_cons, ht.2.1]⟩
  · right; exact hi

theorem splitPlaceholder_pieces (t : Str) :
    ∀ piece ∈ splitPlaceholder t, ¬ placeholder <:+: piece := by
  induction t using splitPlaceholder.induct with
  | case1 =>
    intro piece hp
    simp [splitPlaceholder] at hp
    subst hp
    decide
  | case2 rest ih =>
    intro piece hp
    rw [splitPlaceholder_here] at hp
    rcases List.mem_cons.mp hp with rfl | hp
    · decide
    · exact ih piece hp
  | case3 c rest hne hnil ih => exact absurd hnil (splitPlaceholder_ne_nil rest)
  | case4 c rest hne first pieces hsplit ih =>
    intro piece hp
    rw [splitPlaceholder_skip c rest hne, hsplit] at hp
    rcases List.mem_cons.mp hp with rfl | hp
    · intro hin
      rcases placeholder_infix_cons c first hin with ⟨hc, hd⟩ | hi
      · have hjoin := splitPlaceholder_join rest
        rw [hsplit] at hjoin
        cases first with
        | nil => simp at hd
        | cons d first =>
          simp at hd
          subst hd
          cases pieces with
          | nil =>
            simp [List.intercalate] at hjoin
            exact hne first hc hjoin.symm
          | cons q ps =>
            rw [intercalate_cons_cons] at hjoin
            exact hne _ hc hjoin.symm
      · exact ih first (by rw [hsplit]; exact List.mem_cons_self _ _) hi
    · exact ih piece (by rw [hsplit]; exact List.mem_cons_of_mem _ hp)
section ByName

variable {Mapped GlobalConfig Txn Params : Type}
variable {SceneInput GalleryInput StoredScene StoredGallery : Type}
variable {Performer Scene Gallery Movie : Type}

/-- A call of `loadURL` fetches its URL and does nothing else. -/
theorem loadURL_trace
    (c : Collaborators Mapped GlobalConfig Txn Params SceneInput GalleryInput StoredScene
      StoredGallery Performer Scene Gallery Movie)
    (s : jsonScraper Mapped GlobalConfig Txn) (url : Str) :
    (s.loadURL c url).trace = [.fetch url] := by
  unfold jsonScraper.loadURL
  cases c.loadURL url s.config s.globalConfig with
  | error e => rfl
  | ok r =>
    cases r with
    | error e => rfl
    | ok doc =>
      cases h1 : gjsonValid doc <;> cases h2 : gjsonValid (replaceJSONP doc) <;> simp [h1, h2]

theorem getJsonScraper_isNone (s : jsonScraper Mapped GlobalConfig Txn)
    (hmapped : (s.config.JsonScrapers s.scraper.Scraper).isSome = true) :
    s.getJsonScraper.isNone = false := by
  unfold jsonScraper.getJsonScraper
  cases h : s.config.JsonScrapers s.scraper.Scraper <;> simp_all

/-- The first event of a search by name with a mapping in place is the fetch
of the template in which the placeholder is replaced by the escaped name. -/
theorem scrapePerformersByName_fetch
    (c : Collaborators Mapped GlobalConfig Txn Params SceneInput GalleryInput StoredScene
      StoredGallery Performer Scene Gallery Movie)
    (s : jsonScraper Mapped GlobalConfig Txn) (name : Str)
    (hmapped : (s.config.JsonScrapers s.scraper.Scraper).isSome = true) :
    (s.scrapePerformersByName c name).trace.head?
      = some (.fetch (stringsReplace s.scraper.QueryURL placeholder (QueryEscape name))) := by
  unfold jsonScraper.scrapePerformersByName
  simp only [getJsonScraper_isNone s hmapped]
  cases h : (s.loadURL c (stringsReplace s.scraper.QueryURL placeholder (QueryEscape name))).err
    <;> simp [h, loadURL_trace]

/-- C6: in a search by name with a mapping in place, the URL that is fetched is
the query URL template with every placeholder `{}` replaced by the
query-escaped name and every other character kept: for a template made of
pieces without `{}` joined by `{}`, it is the same pieces joined by the escaped
name; a template without `{}` is fetched as it is.  Every template is made of
such pieces (those of `splitPlaceholder`). -/
theorem by_name_url
    (c : Collaborators Mapped GlobalConfig Txn Params SceneInput GalleryInput StoredScene
      StoredGallery Performer Scene Gallery Movie)
    (s : jsonScraper Mapped GlobalConfig Txn) (name : Str) (pieces : List Str)
    (hmapped : (s.config.JsonScrapers s.scraper.Scraper).isSome = true)
    (hpieces : ∀ piece ∈ pieces, ¬ placeholder <:+: piece)
    (htemplate : s.scraper.QueryURL = placeholder.intercalate pieces) :
    (s.scrapePerformersByName c name).trace.head?
        = some (.fetch ((QueryEscape name).intercalate pieces))
      ∧ (¬ placeholder <:+: s.scraper.QueryURL →
          (s.scrapePerformersByName c name).trace.head? = some (.fetch s.scraper.QueryURL))
      ∧ (∀ piece ∈ splitPlaceholder s.scraper.QueryURL, ¬ placeholder <:+: piece)
      ∧ s.scraper.QueryURL = placeholder.intercalate (splitPlaceholder s.scraper.QueryURL) := by
  have h := scrapePerformersByName_fetch c s name hmapped
  refine ⟨?_, ?_, splitPlaceholder_pieces _, (splitPlaceholder_join _).symm⟩
  · rw [h, htemplate, stringsReplace_intercalate _ pieces hpieces]
  · intro hnone
    rw [h]
    unfold stringsReplace
    rw [replaceFrom_none _ _ hnone]

theorem by_name_url_witness :
    ((sampleScraper true none).scrapePerformersByName (tableCollaborators sampleServe)
        "foo bar".toList).trace.head?
      = some (.fetch "http://example/search?q=foo+bar".toList)
    ∧ ((sampleScraper true none).scrapePerformersByName (tableCollaborators sampleServe)
        "R&B/ü?".toList).trace.head?
      = some (.fetch "http://example/search?q=R%26B%2F%C3%BC%3F".toList) :=
  ⟨(by_name_url (tableCollaborators sampleServe) (sampleScraper true none) "foo bar".toList
    ["http://example/search?q=".toList, []] (by decide)
    (by
      intro piece hp
      simp only [List.mem_cons, List.mem_singleton, List.not_mem_nil, or_false] at hp
      rcases hp with rfl | rfl <;> decide)
    (by decide)).1,
   (by_name_url (tableCollaborators sampleServe) (sampleScraper true none) "R&B/ü?".toList
    ["http://example/search?q=".toList, []] (by decide)
    (by
      intro piece hp
      simp only [List.mem_cons, List.mem_singleton, List.not_mem_nil, or_false] at hp
      rcases hp with rfl | rfl <;> decide)
    (by decide)).1⟩

/-- C7, as the claim states it, fails: with the rule that rewrites `search` to
`find` configured, the search for `foo bar` fetches
`http://example/search?q=foo+bar`, while the cleanup pass over the substituted
template gives `http://example/find?q=foo+bar`. -/
theorem by_name_cleanup_counterexample :
    ((sampleScraper true (some [⟨"search".toList, "find".toList⟩])).scrapePerformersByName
        (tableCollaborators sampleServe) "foo bar".toList).trace.head?
      = some (.fetch "http://example/search?q=foo+bar".toList)
    ∧ applyReplacementRules [⟨"search".toList, "find".toList⟩]
        (stringsReplace (sampleScraper true (some [⟨"search".toList, "find".toList⟩])).scraper.QueryURL
          placeholder (QueryEscape "foo bar".toList))
      = "http://example/find?q=foo+bar".toList
    ∧ ((sampleScraper true (some [⟨"search".toList, "find".toList⟩])).scrapePerformersByName
        (tableCollaborators sampleServe) "foo bar".toList).trace.head?
      ≠ some (.fetch (applyReplacementRules [⟨"search".toList, "find".toList⟩]
          (stringsReplace (sampleScraper true (some [⟨"search".toList, "find".toList⟩])).scraper.QueryURL
            placeholder (QueryEscape "foo bar".toList)))) := by
  decide

/-- C7, amended: a search by name applies no replacement rule to its URL:
whatever `QueryURLReplacements` holds, the URL fetched (a mapping being in
place) is the template with the placeholder replaced by the escaped name.  The
by-fragment operations hand the configured rules to `applyReplacements` on the
query parameters of the stored entity, and the URL is constructed from the
parameters so updated. -/
theorem by_name_skips_replacements
    (c : Collaborators Mapped GlobalConfig Txn Params SceneInput GalleryInput StoredScene
      StoredGallery Performer Scene Gallery Movie)
    (s : jsonScraper Mapped GlobalConfig Txn) :
    (∀ (rules : Option (List ReplacementRule)) (name : Str),
        (s.config.JsonScrapers s.scraper.Scraper).isSome = true →
        (jsonScraper.scrapePerformersByName c
          { s with scraper := { s.scraper with QueryURLReplacements := rules } } name).trace.head?
        = some (.fetch (stringsReplace s.scraper.QueryURL placeholder (QueryEscape name))))
      ∧ (∀ (rules : List ReplacementRule) (scene : SceneInput) (stored : StoredScene),
          s.scraper.QueryURLReplacements = some rules →
          c.sceneFromUpdateFragment scene s.txnManager = .ok (some stored) →
          (s.scrapeSceneByFragment c scene).trace.head?
            = some (.construct (c.constructURL
                (c.applyReplacements (c.queryURLParametersFromScene stored) rules)
                s.scraper.QueryURL)))
      ∧ (∀ (rules : List ReplacementRule) (gallery : GalleryInput) (stored : StoredGallery),
          s.scraper.QueryURLReplacements = some rules →
          c.galleryFromUpdateFragment gallery s.txnManager = .ok (some stored) →
          (s.scrapeGalleryByFragment c gallery).trace.head?
            = some (.construct (c.constructURL
                (c.applyReplacements (c.queryURLParametersFromGallery stored) rules)
                s.scraper.QueryURL))) := by
  refine ⟨?_, ?_, ?_⟩
  · intro rules name hmapped
    exact scrapePerformersByName_fetch c
      { s with scraper := { s.scraper with QueryURLReplacements := rules } } name hmapped
  · intro rules scene stored hrules hstored
    unfold jsonScraper.scrapeSceneByFragment
    rw [hstored]
    simp only [hrules]
    cases hm : s.getJsonScraper.isNone
    · cases h : (s.loadURL c (c.constructURL
          (c.applyReplacements (c.queryURLParametersFromScene stored) rules)
          s.scraper.QueryURL)).err <;> simp [h]
    · simp
  · intro rules gallery stored hrules hstored
    unfold jsonScraper.scrapeGalleryByFragment
    rw [hstored]
    simp only [hrules]
    cases hm : s.getJsonScraper.isNone
    · cases h : (s.loadURL c (c.constructURL
          (c.applyReplacements (c.queryURLParametersFromGallery stored) rules)
          s.scraper.QueryURL)).err <;> simp [h]
    · simp

theorem by_name_skips_replacements_witness :
    (jsonScraper.scrapePerformersByName (tableCollaborators sampleServe)
        { sampleScraper true none with
          scraper := { (sampleScraper true none).scraper with
            QueryURLReplacements := some [⟨"search".toList, "find".toList⟩] } }
        "foo bar".toList).trace.head?
      = some (.fetch "http://example/search?q=foo+bar".toList)
    ∧ ((sampleScraper true (some [⟨"search".toList, "find".toList⟩])).scrapeSceneByFragment
        (tableCollaborators sampleServe) 1).trace.head?
      = some (.construct "http://example/search?q=\x7b\x7d".toList) :=
  ⟨(by_name_skips_replacements (tableCollaborators sampleServe) (sampleScraper true none)).1
      (some [⟨"search".toList, "find".toList⟩]) "foo bar".toList (by decide),
   (by_name_skips_replacements (tableCollaborators sampleServe)
      (sampleScraper true (some [⟨"search".toList, "find".toList⟩]))).2.1
      [⟨"search".toList, "find".toList⟩] 1 1 rfl rfl⟩

/-! ## Search by fragment, and the missing mapping -/

/-- C8: when the storage finds no entity for the update (and reports no
error), `scrapeSceneByFragment` and `scrapeGalleryByFragment` return a nil
record with the error "no scene found", and nothing is constructed or fetched. -/
theorem fragment_entity_missing
    (c : Collaborators Mapped GlobalConfig Txn Params SceneInput GalleryInput StoredScene
      StoredGallery Performer Scene Gallery Movie)
    (s : jsonScraper Mapped GlobalConfig Txn) :
    (∀ scene : SceneInput, c.sceneFromUpdateFragment scene s.txnManager = .ok none →
        (s.scrapeSceneByFragment c scene).val = none
        ∧ (s.scrapeSceneByFragment c scene).err = some "no scene found".toList
        ∧ (s.scrapeSceneByFragment c scene).trace = [])
      ∧ (∀ gallery : GalleryInput, c.galleryFromUpdateFragment gallery s.txnManager = .ok none →
        (s.scrapeGalleryByFragment c gallery).val = none
        ∧ (s.scrapeGalleryByFragment c gallery).err = some "no scene found".toList
        ∧ (s.scrapeGalleryByFragment c gallery).trace = []) := by
  constructor
  · intro scene h
    unfold jsonScraper.scrapeSceneByFragment
    rw [h]
    exact ⟨rfl, rfl, rfl⟩
  · intro gallery h
    unfold jsonScraper.scrapeGalleryByFragment
    rw [h]
    exact ⟨rfl, rfl, rfl⟩

theorem fragment_entity_missing_witness :
    (((sampleScraper true none).scrapeSceneByFragment (tableCollaborators sampleServe) 7).val
        = none
      ∧ ((sampleScraper true none).scrapeSceneByFragment (tableCollaborators sampleServe) 7).err
        = some "no scene found".toList
      ∧ ((sampleScraper true none).scrapeSceneByFragment (tableCollaborators sampleServe) 7).trace
        = [])
    ∧ (((sampleScraper true none).scrapeGalleryByFragment (tableCollaborators sampleServe) 7).val
        = none
      ∧ ((sampleScraper true none).scrapeGalleryByFragment (tableCollaborators sampleServe) 7).err
        = some "no scene found".toList
      ∧ ((sampleScraper true none).scrapeGalleryByFragment (tableCollaborators sampleServe)
          7).trace = []) :=
  ⟨(fragment_entity_missing (tableCollaborators sampleServe) (sampleScraper true none)).1 7 rfl,
   (fragment_entity_missing (tableCollaborators sampleServe) (sampleScraper true none)).2 7 rfl⟩

/-- C9: `subScrape` has no error result; it returns the nil query exactly when
`loadURL` on the value fails, that is when the fetch fails, the read fails, or
the payload is not valid JSON even after the JSONP repair; otherwise it returns
a query on the loaded text (the payload, or its repair) whose scraper is the
scraper of the parent query. -/
theorem subScrape_isolated
    (c : Collaborators Mapped GlobalConfig Txn Params SceneInput GalleryInput StoredScene
      StoredGallery Performer Scene Gallery Movie)
    (q : jsonQuery Mapped GlobalConfig Txn) (value : Str) :
    ((q.subScrape c value).1 = none ↔ (q.scraper.loadURL c value).err ≠ none)
      ∧ ((q.scraper.loadURL c value).err ≠ none ↔
          ((∃ e, c.loadURL value q.scraper.config q.scraper.globalConfig = .error e)
            ∨ (∃ e, c.loadURL value q.scraper.config q.scraper.globalConfig = .ok (.error e))
            ∨ (∃ payload,
                c.loadURL value q.scraper.config q.scraper.globalConfig = .ok (.ok payload)
                ∧ gjsonValid payload = false ∧ gjsonValid (replaceJSONP payload) = false)))
      ∧ ((q.scraper.loadURL c value).err = none ↔
          (q.subScrape c value).1
            = some { doc := (q.scraper.loadURL c value).val, scraper := q.scraper })
      ∧ (∀ payload, c.loadURL value q.scraper.config q.scraper.globalConfig = .ok (.ok payload) →
          (q.scraper.loadURL c value).err = none →
          (q.scraper.loadURL c value).val
            = if gjsonValid payload then payload else replaceJSONP payload) := by
  refine ⟨?_, ?_, ?_, ?_⟩
  · unfold jsonQuery.subScrape
    cases h : (q.scraper.loadURL c value).err <;> simp [h]
  · cases hf : c.loadURL value q.scraper.config q.scraper.globalConfig with
    | error e => simp [jsonScraper.loadURL, hf]
    | ok r =>
      cases r with
      | error e => simp [jsonScraper.loadURL, hf]
      | ok payload =>
        rw [loadURL_fetched c q.scraper value payload hf]
        cases h1 : gjsonValid payload <;> cases h2 : gjsonValid (replaceJSONP payload) <;>
          simp [h1, h2]
  · unfold jsonQuery.subScrape
    cases h : (q.scraper.loadURL c value).err <;> simp [h, jsonScraper.getJsonQuery]
  · intro payload hf
    rw [loadURL_fetched c q.scraper value payload hf]
    cases h1 : gjsonValid payload <;> cases h2 : gjsonValid (replaceJSONP payload) <;> simp

theorem subScrape_isolated_witness :
    ((sampleQuery.subScrape (tableCollaborators sampleServe) "http://example/html".toList).1 = none
      ∧ ((sampleScraper true none).loadURL (tableCollaborators sampleServe)
          "http://example/html".toList).err ≠ none)
    ∧ (sampleQuery.subScrape (tableCollaborators sampleServe) "http://example/jsonp".toList).1
      = some { doc := "\x7b\"a\":1\x7d".toList, scraper := sampleScraper true none }
    ∧ (sampleQuery.subScrape (tableCollaborators sampleServe) "http://example/minus".toList).1
      = some { doc := "[-]".toList, scraper := sampleScraper true none }
    ∧ (sampleQuery.subScrape (tableCollaborators sampleServe) "http://example/gone".toList).1
      = none :=
  ⟨⟨(subScrape_isolated (tableCollaborators sampleServe) sampleQuery
      "http://example/html".toList).1.mpr (by decide), by decide⟩,
   (subScrape_isolated (tableCollaborators sampleServe) sampleQuery
      "http://example/jsonp".toList).2.2.1.mp (by decide),
   (subScrape_isolated (tableCollaborators sampleServe) sampleQuery
      "http://example/minus".toList).2.2.1.mp (by decide),
   (subScrape_isolated (tableCollaborators sampleServe) sampleQuery
      "http://example/gone".toList).1.mpr (by decide)⟩

/-- C10: when the configuration has no mapping under the name of the scraper,
the four by-URL operations and the search by name return a nil result with the
error "json scraper with name <name> not found in config" and fetch nothing;
the two by-fragment operations return the same error, and fetch nothing, once
the stored entity was found. -/
theorem mapping_missing
    (c : Collaborators Mapped GlobalConfig Txn Params SceneInput GalleryInput StoredScene
      StoredGallery Performer Scene Gallery Movie)
    (s : jsonScraper Mapped GlobalConfig Txn)
    (hmissing : s.config.JsonScrapers s.scraper.Scraper = none) :
    (∀ url, (s.scrapePerformerByURL c url).val = none
        ∧ (s.scrapePerformerByURL c url).err = some (notFoundInConfig s.scraper.Scraper)
        ∧ (s.scrapePerformerByURL c url).trace = [])
      ∧ (∀ url, (s.scrapeSceneByURL c url).val = none
        ∧ (s.scrapeSceneByURL c url).err = some (notFoundInConfig s.scraper.Scraper)
        ∧ (s.scrapeSceneByURL c url).trace = [])
      ∧ (∀ url, (s.scrapeGalleryByURL c url).val = none
        ∧ (s.scrapeGalleryByURL c url).err = some (notFoundInConfig s.scraper.Scraper)
        ∧ (s.scrapeGalleryByURL c url).trace = [])
      ∧ (∀ url, (s.scrapeMovieByURL c url).val = none
        ∧ (s.scrapeMovieByURL c url).err = some (notFoundInConfig s.scraper.Scraper)
        ∧ (s.scrapeMovieByURL c url).trace = [])
      ∧ (∀ name, (s.scrapePerformersByName c name).val = []
        ∧ (s.scrapePerformersByName c name).err = some (notFoundInConfig s.scraper.Scraper)
        ∧ (s.scrapePerformersByName c name).trace = [])
      ∧ (∀ scene stored, c.sceneFromUpdateFragment scene s.txnManager = .ok (some stored) →
        (s.scrapeSceneByFragment c scene).val = none
        ∧ (s.scrapeSceneByFragment c scene).err = some (notFoundInConfig s.scraper.Scraper)
        ∧ ∀ url, Event.fetch url ∉ (s.scrapeSceneByFragment c scene).trace)
      ∧ (∀ gallery stored, c.galleryFromUpdateFragment gallery s.txnManager = .ok (some stored) →
        (s.scrapeGalleryByFragment c gallery).val = none
        ∧ (s.scrapeGalleryByFragment c gallery).err = some (notFoundInConfig s.scraper.Scraper)
        ∧ ∀ url, Event.fetch url ∉ (s.scrapeGalleryByFragment c gallery).trace) := by
  have hnil : s.getJsonScraper = none := hmissing
  have hurl : ∀ u, s.scrapeURL c u
      = ⟨([], none), some (notFoundInConfig s.scraper.Scraper), []⟩ := by
    intro u
    simp [jsonScraper.scrapeURL, hnil]
  refine ⟨?_, ?_, ?_, ?_, ?_, ?_, ?_⟩
  · intro url; simp [jsonScraper.scrapePerformerByURL, hurl]
  · intro url; simp [jsonScraper.scrapeSceneByURL, hurl]
  · intro url; simp [jsonScraper.scrapeGalleryByURL, hurl]
  · intro url; simp [jsonScraper.scrapeMovieByURL, hurl]
  · intro name; simp [jsonScraper.scrapePerformersByName, hnil]
  · intro scene stored h
    unfold jsonScraper.scrapeSceneByFragment
    rw [h]
    simp [hnil]
  · intro gallery stored h
    unfold jsonScraper.scrapeGalleryByFragment
    rw [h]
    simp [hnil]

theorem mapping_missing_witness :
    ((sampleScraper false none).scrapePerformerByURL (tableCollaborators sampleServe)
        "http://example/json".toList).err
      = some "json scraper with name demo not found in config".toList
    ∧ ((sampleScraper false none).scrapePerformerByURL (tableCollaborators sampleServe)
        "http://example/json".toList).trace = []
    ∧ ((sampleScraper false none).scrapeSceneByFragment (tableCollaborators sampleServe) 1).err
      = some "json scraper with name demo not found in config".toList :=
  ⟨((mapping_missing (tableCollaborators sampleServe) (sampleScraper false none) rfl).1
      "http://example/json".toList).2.1,
   ((mapping_missing (tableCollaborators sampleServe) (sampleScraper false none) rfl).1
      "http://example/json".toList).2.2,
   ((mapping_missing (tableCollaborators sampleServe) (sampleScraper false none)
      rfl).2.2.2.2.2.1 1 1 rfl).2.1⟩

end ByName

end Scraper
